import Mathlib

/-!
Verification development for the minfx multi-backend replication engine.

The definitions below are a shallow embedding of the Python sources:
* `minfx/neptune_v2/internal/backends/multi_backend.py`
* `minfx/neptune_v2/internal/operation_processors/async_operation_processor.py`
* `minfx/neptune_v2/internal/threading/daemon.py`
* `minfx/neptune_v2/internal/state.py`

Machine times are modelled as `Nat`, exceptions as `Nat`-valued tags, and
nondeterministic concurrency (parallel futures, condition-variable wakeups)
as explicit parameters carrying the observed outcome of each backend call.
-/

namespace Minfx

/-- Exceptions are opaque values in the parts of the code we model; only
their identity matters (they are stored and re-raised). -/
abbrev Exn := Nat

/-- `FAILURE_THRESHOLD = 3` in multi_backend.py: failures before marking
a backend as degraded. -/
def FAILURE_THRESHOLD : Nat := 3

/-- Backend health: tagged union from multi_backend.py.
`Healthy{last_success_time}`, `Failing{consecutive_failures, last_error,
last_success_time}`, `Degraded{consecutive_failures, last_error}`. -/
inductive BackendHealth where
  | healthy (lastSuccessTime : Nat)
  | failing (consecutiveFailures : Nat) (lastError : Exn) (lastSuccessTime : Nat)
  | degraded (consecutiveFailures : Nat) (lastError : Exn)
deriving DecidableEq, Repr

/-- `is_routable`: backend should receive operations iff it is
`Healthy` or `Failing` (multi_backend.py line 100). -/
def is_routable : BackendHealth → Bool
  | .healthy _ => true
  | .failing _ _ _ => true
  | .degraded _ _ => false

/-- `compute_success_health`: new health after a successful operation
(multi_backend.py line 124). The current time is passed explicitly. -/
def compute_success_health (now : Nat) : BackendHealth :=
  .healthy now

/-- `compute_failure_health`: pure transition after a failed operation
(multi_backend.py line 129). -/
def compute_failure_health (current : BackendHealth) (error : Exn) : BackendHealth :=
  match current with
  | .healthy t =>
      .failing 1 error t
  | .failing n _ t =>
      if n < FAILURE_THRESHOLD - 1 then
        .failing (n + 1) error t
      else
        .degraded (n + 1) error
  | .degraded n _ =>
      .degraded (n + 1) error

/-- One observed outcome of an operation against a backend. -/
inductive Outcome where
  | success (now : Nat)
  | failure (error : Exn)
deriving DecidableEq, Repr

/-- Apply one outcome to a health state, as the dispatcher does in
`_transition_on_success` / `_transition_on_failure`. -/
def applyOutcome (h : BackendHealth) : Outcome → BackendHealth
  | .success now => compute_success_health now
  | .failure e => compute_failure_health h e

/-- The documented health invariant: a Healthy has no failure count;
a Failing has `1 ≤ count ≤ 2`; a Degraded has `count ≥ 3`. -/
def healthInvariant : BackendHealth → Prop
  | .healthy _ => True
  | .failing n _ _ => 1 ≤ n ∧ n ≤ 2
  | .degraded n _ => 3 ≤ n

instance (h : BackendHealth) : Decidable (healthInvariant h) := by
  cases h <;> simp [healthInvariant] <;> infer_instance

/-- `BackendState` from multi_backend.py: a backend handle (opaque),
its original index, and its health. -/
structure BackendState where
  backend : Nat
  index : Nat
  health : BackendHealth
deriving DecidableEq, Repr

/-- `_get_routable_backends` (multi_backend.py line 390): the Healthy and
Failing backends in list order, falling back to all when none is routable. -/
def getRoutableBackends (states : List BackendState) : List BackendState :=
  let routable := states.filter (fun s => is_routable s.health)
  if routable.isEmpty then states else routable

/-- `BackendError(backend_index, cause)` from the exceptions module:
a wrapped failure of one backend, keeping its original index. -/
structure BackendError where
  backendIndex : Nat
  cause : Exn
deriving DecidableEq, Repr

/-- The exception a `MultiBackend` public method may raise:
`NeptuneMultiBackendClosedError`, `AllBackendsFailedError(errors)`, or a
re-raised original backend exception (single-backend compatibility path). -/
inductive MBExn where
  | closedErr
  | allFailed (errors : List BackendError)
  | reraised (cause : Exn)
deriving DecidableEq, Repr

/-- `_raise_all_failed` (multi_backend.py line 243): with a single wrapped
backend and a single error, re-raise the original cause; otherwise raise
`AllBackendsFailedError` with all the collected errors.
`numBackends` is `len(self._backend_states)` (see `_is_single_backend`). -/
def raiseAllFailed (numBackends : Nat) (errors : List BackendError) : MBExn :=
  match numBackends, errors with
  | 1, [e] => .reraised e.cause
  | _, _ => .allFailed errors

/-- Observed outcome of one backend's `execute_operations` call:
either `(processed_count, partial_errors)` or a raised exception. -/
inductive ExecResult where
  | ok (processed : Nat) (partialErrors : List Exn)
  | err (e : Exn)
deriving DecidableEq, Repr

/-- `max(r[0] for r in results)` over the successful results, as computed in
`MultiBackend.execute_operations` (Python `max` of a nonempty list; the fold
from 0 agrees on `Nat`). -/
def maxProcessed (results : List (Nat × List Exn)) : Nat :=
  (results.map Prod.fst).foldl Nat.max 0

/-- `MultiBackend.execute_operations` (multi_backend.py line 778), with the
parallel fan-out linearised in routable-list order: `run` gives each
backend's observed outcome keyed by original index. Returns
`(max processed_count over successes, errors of completely failed backends)`
or raises when closed / when every backend failed. -/
def executeOperations (closed : Bool) (states : List BackendState)
    (run : Nat → ExecResult) : Except MBExn (Nat × List BackendError) :=
  if closed then .error .closedErr
  else
    let backendsToUse := getRoutableBackends states
    let backendErrors := backendsToUse.filterMap fun s =>
      match run s.index with
      | .err e => some ⟨s.index, e⟩
      | .ok _ _ => none
    let results := backendsToUse.filterMap fun s =>
      match run s.index with
      | .ok p es => some (p, es)
      | .err _ => none
    if results.isEmpty then .error (raiseAllFailed states.length backendErrors)
    else .ok (maxProcessed results, backendErrors)

/-- `ApiExperiment` identifiers relevant to the model: the backend-assigned
`id` (UUID) and `sys_id`. -/
structure ApiExperiment where
  id : String
  sysId : String
deriving DecidableEq, Repr

/-- A recorded `create_run` invocation on one backend: the backend's original
index and the `_external_id` / `_external_sys_id` keyword arguments passed. -/
structure CreateRunCall where
  index : Nat
  externalId : Option String
  externalSysId : Option String
deriving DecidableEq, Repr

/-- `MultiBackend.create_run` (multi_backend.py line 527): call the backend at
position 0 first; on its success, fan out to the remaining backends with the
primary's `id`/`sys_id` as external identifiers; secondary failures are
collected but do not fail the call; the primary's `ApiExperiment` is
returned together with the trace of per-backend invocations.
`beh` gives each backend's observed `create_run` outcome, as a function of
its original index and the external identifiers passed to it. -/
def createRun (closed : Bool) (states : List BackendState)
    (extId extSysId : Option String)
    (beh : Nat → Option String → Option String → Except Exn ApiExperiment) :
    Except MBExn (ApiExperiment × List CreateRunCall) :=
  if closed then .error .closedErr
  else
    match states with
    | [] => .error (.allFailed [])
    | primary :: remaining =>
      match beh primary.index extId extSysId with
      | .error e =>
          .error (raiseAllFailed states.length [⟨primary.index, e⟩])
      | .ok primaryResult =>
          let secondaryCalls := remaining.map fun s =>
            CreateRunCall.mk s.index (some primaryResult.id) (some primaryResult.sysId)
          .ok (primaryResult, ⟨primary.index, extId, extSysId⟩ :: secondaryCalls)

/-- `MultiBackend.create_model` / `create_model_version` fan-out
(multi_backend.py lines 660 and 702): run on all backends in parallel,
succeed when any succeeds, and return the result of the backend with the
lowest original index. `run` gives each backend's observed outcome. -/
def createFanOut (closed : Bool) (states : List BackendState)
    (run : Nat → Except Exn ApiExperiment) : Except MBExn ApiExperiment :=
  if closed then .error .closedErr
  else
    let results := states.filterMap fun s =>
      match run s.index with
      | .ok r => some (s.index, r)
      | .error _ => none
    let errors := states.filterMap fun s =>
      match run s.index with
      | .error e => some (BackendError.mk s.index e)
      | .ok _ => none
    match results with
    | [] => .error (raiseAllFailed states.length errors)
    | r :: rs =>
        let lowest := (r :: rs).foldl (fun best c => if c.1 < best.1 then c else best) r
        .ok lowest.2

/-- The sequential read-dispatch loop shared by `get_project`,
`get_attributes`, the typed-attribute getters, downloads and searches
(multi_backend.py line 857 and friends): try routable backends in list
order, return the first success, and on total failure raise via
`_raise_all_failed`. `run` gives each backend's observed outcome. -/
def readDispatchGo (numBackends : Nat) (run : Nat → Except Exn Nat) :
    List BackendState → List BackendError → Except MBExn Nat
  | [], errors => .error (raiseAllFailed numBackends errors)
  | s :: rest, errors =>
    match run s.index with
    | .ok r => .ok r
    | .error e => readDispatchGo numBackends run rest (errors ++ [⟨s.index, e⟩])

/-- Entry point of the sequential read dispatch: check the closed flag, then
try the routable backends in order via `readDispatchGo`. -/
def readDispatch (closed : Bool) (states : List BackendState)
    (run : Nat → Except Exn Nat) : Except MBExn Nat :=
  if closed then .error .closedErr
  else readDispatchGo states.length run (getRoutableBackends states) []

/-- `MultiBackend.get_all_run_urls` (multi_backend.py line 1134): collect the
run URL from every backend, skipping failures. Note that the source performs
no `_check_not_closed` test, so the closed flag is ignored. -/
def getAllRunUrls (closed : Bool) (states : List BackendState)
    (urlOf : Nat → Except Exn String) : List String :=
  let _ := closed
  states.filterMap fun s => (urlOf s.index).toOption

/-- Dispatcher-level state relevant to `close()`: the backend list and the
shutdown event. -/
structure DispatcherState where
  states : List BackendState
  closed : Bool
deriving DecidableEq, Repr

/-- `MultiBackend.close` (multi_backend.py line 1217): set the shutdown
event, cancel the timer, drain the executor and close each backend,
swallowing individual close errors. The returned list holds the indices of
backends whose `close()` raised (each such error is only logged). The
function is total: `close` itself never raises. `backendClose` gives each
backend's observed `close()` outcome. -/
def closeDispatcher (d : DispatcherState)
    (backendClose : Nat → Except Exn Unit) : DispatcherState × List Nat :=
  let failedCloses := d.states.filterMap fun s =>
    match backendClose s.index with
    | .error _ => some s.index
    | .ok _ => none
  ({ d with closed := true }, failedCloses)

/-! ### Async operation processor (async_operation_processor.py, state.py) -/

/-- `OperationAcceptance` from state.py: whether the processor accepts new
operations. -/
inductive OperationAcceptance where
  | accepting
  | rejecting
deriving DecidableEq, Repr

/-- `OperationAcceptance.is_accepting` (state.py line 45). -/
def OperationAcceptance.isAccepting : OperationAcceptance → Bool
  | .accepting => true
  | .rejecting => false

/-- Operations are opaque payloads for the queueing layer. -/
abbrev Op := Nat

/-- `QUEUE_BACKPRESSURE_THRESHOLD = 5000` (async_operation_processor.py). -/
def QUEUE_BACKPRESSURE_THRESHOLD : Nat := 5000

/-- The `AsyncOperationProcessor` state touched by `enqueue_operation`,
`wait` and `close`: the acceptance flag, the queue contents with the
version counter (the queue is modelled from the spec's §4.2 contract —
`put` assigns monotonically increasing versions — since the `DiskQueue`
source is outside the modelled tree), `_last_version`, and the
backpressure threshold `_queue_threshold`. -/
structure ProcState where
  acceptance : OperationAcceptance
  versionCounter : Nat
  queue : List (Nat × Op)
  lastVersion : Nat
  queueThreshold : Nat
  batchSize : Nat
deriving DecidableEq, Repr

/-- Modelled from the spec: `DiskQueue.put(op) → version` assigns the next
monotonic version and appends the entry (spec §4.2; disk_queue.py is not in
the modelled tree). -/
def queuePut (s : ProcState) (op : Op) : ProcState × Nat :=
  let v := s.versionCounter + 1
  ({ s with versionCounter := v, queue := s.queue ++ [(v, op)] }, v)

/-- `_check_queue_backpressure` (async_operation_processor.py line 216):
when `size // 5000` exceeds the last observed threshold, warn and raise the
threshold. Returns the new state and whether a warning was logged. -/
def checkQueueBackpressure (s : ProcState) : ProcState × Bool :=
  let size := s.queue.length
  let currentThreshold := size / QUEUE_BACKPRESSURE_THRESHOLD
  if currentThreshold > s.queueThreshold then
    ({ s with queueThreshold := currentThreshold }, true)
  else
    (s, false)

/-- `_check_queue_size` (async_operation_processor.py line 210):
`queue.size() > batch_size / 2` (Python float division; on `Nat` we compare
`2 * size > batch_size`, which is the same inequality). -/
def checkQueueSize (s : ProcState) : Bool :=
  2 * s.queue.length > s.batchSize

/-- Observable actions of the processor, for stating ordering facts. -/
inductive ProcAction where
  | warnNotAccepting
  | warnBackpressure
  | wakeUpConsumer
  | flushQueue
  | blockUntilAcked (version : Nat)
deriving DecidableEq, Repr

/-- `NeptuneSynchronizationAlreadyStoppedException`. -/
inductive ProcErr where
  | syncStopped
deriving DecidableEq, Repr

/-- `AsyncOperationProcessor.wait` release predicate
(async_operation_processor.py line 204): the condition variable wait
returns once `consumed_version ≥ waiting_for_version` or the consumer is no
longer running. -/
def waitRelease (consumed target : Nat) (running : Bool) : Prop :=
  target ≤ consumed ∨ running = false

instance (c t : Nat) (r : Bool) : Decidable (waitRelease c t r) := by
  unfold waitRelease; infer_instance

/-- The tail of `AsyncOperationProcessor.wait` (line 207): after the wait
releases, raise `SynchronizationAlreadyStopped` when the consumer is not
running, else return. -/
def waitResult (running : Bool) : Except ProcErr Unit :=
  if running then .ok () else .error .syncStopped

/-- `AsyncOperationProcessor.enqueue_operation`
(async_operation_processor.py line 172). When the processor is rejecting,
warn once and return untouched. Otherwise put the operation, run the
backpressure check, wake the consumer when the queue is over half a batch,
and, when `wait` is set, flush and block until the enqueued version is
consumed or the consumer stops. The observed values `consumedObs` /
`runningObs` are the processor fields read when the blocking wait releases;
they are unused unless `wait` is true. Produces the new state, the action
trace, and the raised exception if any. -/
def enqueueOperation (s : ProcState) (op : Op) (wait : Bool)
    (consumedObs : Nat) (runningObs : Bool) :
    ProcState × List ProcAction × Except ProcErr Unit :=
  if ¬ s.acceptance.isAccepting then
    (s, [.warnNotAccepting], .ok ())
  else
    let (s₁, v) := queuePut s op
    let s₂ := { s₁ with lastVersion := v }
    let (s₃, warned) := checkQueueBackpressure s₂
    let bpActs : List ProcAction := if warned then [.warnBackpressure] else []
    let wakeActs : List ProcAction := if checkQueueSize s₃ then [.wakeUpConsumer] else []
    if wait then
      let _ := consumedObs
      (s₃, bpActs ++ wakeActs ++ [.flushQueue, .wakeUpConsumer, .blockUntilAcked v],
        waitResult runningObs)
    else
      (s₃, bpActs ++ wakeActs, .ok ())

/-- `AsyncOperationProcessor.close` (async_operation_processor.py line 347):
set the acceptance flag to rejecting (and unregister the queue size
provider, which has no modelled state). -/
def closeProcessor (s : ProcState) : ProcState :=
  { s with acceptance := .rejecting }

/-! ### Consumer `process_batch` loop (async_operation_processor.py) -/

/-- The state threaded through the `process_batch` retry loop
(async_operation_processor.py line 406): the running ack cursor
`version_to_ack`, the processor's `_consumed_version`, and the remaining
operations of the batch. -/
structure PBState where
  versionToAck : Nat
  consumedVersion : Nat
  remaining : List Op
deriving DecidableEq, Repr

/-- One iteration of the `process_batch` loop after
`backend.execute_operations` returned `processed` operations: advance the
cursor, drop the processed prefix, and — in a single step under the
processor lock — ack the queue at the new cursor and set
`_consumed_version` to it. -/
def pbStep (s : PBState) (processed : Nat) : PBState :=
  let v := s.versionToAck + processed
  { versionToAck := v, consumedVersion := v, remaining := s.remaining.drop processed }

/-- The loop states visited by `process_batch` (one per
`execute_operations` return), given the sequence `ps` of observed
`processed_count` values. The loop exits once the cursor reaches the
batch's end version `target`. -/
def pbTrace (target : Nat) (s : PBState) : List Nat → List PBState
  | [] => []
  | p :: ps =>
    let s' := pbStep s p
    if s'.versionToAck = target then [s'] else s' :: pbTrace target s' ps

/-- The initial `process_batch` state: `version_to_ack = version -
expected_count` with `remaining` the whole batch (async_operation_processor.py
lines 410-411); `consumed₀` is whatever `_consumed_version` held before. -/
def pbInit (batch : List Op) (version : Nat) (consumed₀ : Nat) : PBState :=
  { versionToAck := version - batch.length, consumedVersion := consumed₀, remaining := batch }

/-! ### Daemon connection-retry wrapper (daemon.py) -/

/-- `ConnectionRetryWrapper.INITIAL_RETRY_BACKOFF = 2`. -/
def INITIAL_RETRY_BACKOFF : Nat := 2

/-- `ConnectionRetryWrapper.MAX_RETRY_BACKOFF = 120`. -/
def MAX_RETRY_BACKOFF : Nat := 120

/-- Backoff update on one `NeptuneConnectionLostException`
(daemon.py lines 172-190): first failure sets the backoff to 2 s, later
failures double it capped at 120 s. -/
def retryBackoffAfterFailure (b : Nat) : Nat :=
  if b = 0 then INITIAL_RETRY_BACKOFF else min (b * 2) MAX_RETRY_BACKOFF

/-- `last_backoff_time` after `k` consecutive connection failures starting
from a reset (0) backoff. -/
def backoffAfterFailures : Nat → Nat
  | 0 => 0
  | k + 1 => retryBackoffAfterFailure (backoffAfterFailures k)

/-- Success branch of the retry wrapper (daemon.py lines 151-161): when the
current backoff is positive, reset it to 0 and log "Communication
restored". Returns the new backoff and whether the restore message was
logged. -/
def retryOnSuccess (b : Nat) : Nat × Bool :=
  if b > 0 then (0, true) else (b, false)

/-! ### Helper lemmas -/

/-- One outcome step preserves the health invariant. -/
lemma healthInvariant_applyOutcome (h : BackendHealth) (o : Outcome)
    (hinv : healthInvariant h) : healthInvariant (applyOutcome h o) := by
  cases o with
  | success now => simp [applyOutcome, compute_success_health, healthInvariant]
  | failure e =>
    cases h with
    | healthy t => simp [applyOutcome, compute_failure_health, healthInvariant]
    | failing n e' t =>
      simp only [applyOutcome, compute_failure_health, FAILURE_THRESHOLD]
      simp only [healthInvariant] at hinv
      by_cases hn : n < 3 - 1
      · simp only [if_pos hn, healthInvariant]; omega
      · simp only [if_neg hn, healthInvariant]; omega
    | degraded n e' =>
      simp only [applyOutcome, compute_failure_health, healthInvariant]
      simp only [healthInvariant] at hinv
      omega

/-- The health invariant is preserved along any outcome sequence. -/
lemma healthInvariant_foldl (os : List Outcome) (h : BackendHealth)
    (hinv : healthInvariant h) : healthInvariant (os.foldl applyOutcome h) := by
  induction os generalizing h with
  | nil => exact hinv
  | cons o os ih => exact ih _ (healthInvariant_applyOutcome h o hinv)

/-! ### Claim theorems -/

/-- C1. The per-backend health state machine is correct and its invariant
holds: for every sequence of success/failure outcomes applied by the pure
transition functions, the resulting state satisfies the Healthy/Failing/
Degraded count invariants; moreover success from any state yields Healthy,
failure from Healthy yields Failing(1), failure from Failing(1) yields
Failing(2), failure from Failing(2) yields Degraded(3), and failure from
Degraded(n) yields Degraded(n+1). -/
theorem health_state_machine_invariant :
    (∀ (os : List Outcome) (t0 : Nat),
      healthInvariant (os.foldl applyOutcome (.healthy t0)))
    ∧ (∀ (h : BackendHealth) (now : Nat),
        applyOutcome h (.success now) = .healthy now)
    ∧ (∀ (e : Exn) (t : Nat),
        compute_failure_health (.healthy t) e = .failing 1 e t)
    ∧ (∀ (e e' : Exn) (t : Nat),
        compute_failure_health (.failing 1 e' t) e = .failing 2 e t)
    ∧ (∀ (e e' : Exn) (t : Nat),
        compute_failure_health (.failing 2 e' t) e = .degraded 3 e)
    ∧ (∀ (n : Nat) (e e' : Exn),
        compute_failure_health (.degraded n e') e = .degraded (n + 1) e) := by
  refine ⟨fun os t0 => healthInvariant_foldl os _ trivial, ?_, ?_, ?_, ?_, ?_⟩
  · intro h now; cases h <;> rfl
  · intro e t; rfl
  · intro e e' t; rfl
  · intro e e' t; rfl
  · intro n e e'; rfl

/-- C4. The routable set used for dispatch is exactly the backends whose
health is Healthy or Failing, in list order; when that set is empty the
dispatcher falls back to all backends. -/
theorem routable_backends_spec (states : List BackendState) :
    (∀ h : BackendHealth,
      is_routable h = true ↔
        ((∃ t, h = .healthy t) ∨ ∃ n e t, h = .failing n e t))
    ∧ (states.filter (fun s => is_routable s.health) ≠ [] →
        getRoutableBackends states = states.filter (fun s => is_routable s.health))
    ∧ (states.filter (fun s => is_routable s.health) = [] →
        getRoutableBackends states = states) := by
  refine ⟨?_, ?_, ?_⟩
  · intro h
    cases h with
    | healthy t => simp [is_routable]
    | failing n e t =>
        simp only [is_routable, true_iff]
        exact Or.inr ⟨n, e, t, rfl⟩
    | degraded n e => simp [is_routable]
  · intro hne
    simp only [getRoutableBackends]
    rw [if_neg (by simpa [List.isEmpty_iff] using hne)]
  · intro he
    simp only [getRoutableBackends]
    rw [if_pos (by simpa [List.isEmpty_iff] using he)]

/-- Witness for C4 at a concrete backend list whose only backend is
degraded: the fallback uses all backends. -/
theorem routable_backends_spec_witness :
    getRoutableBackends [⟨0, 0, .degraded 3 0⟩] = [⟨0, 0, .degraded 3 0⟩] :=
  (routable_backends_spec [⟨0, 0, .degraded 3 0⟩]).2.2 (by decide)

/-- C7. The connection-retry backoff after `k ≥ 1` consecutive failures is
`min(2^k, 120)` seconds (2 after the first failure), and the first success
after any failure resets the backoff to 0 and logs "Communication
restored". -/
theorem connection_retry_backoff_spec (k : Nat) (hk : 1 ≤ k) :
    backoffAfterFailures k = min (2 ^ k) MAX_RETRY_BACKOFF
    ∧ backoffAfterFailures 1 = INITIAL_RETRY_BACKOFF
    ∧ retryOnSuccess (backoffAfterFailures k) = (0, true) := by
  have hmain : ∀ m, 1 ≤ m → backoffAfterFailures m = min (2 ^ m) MAX_RETRY_BACKOFF := by
    intro m hm
    induction m with
    | zero => omega
    | succ n ih =>
      by_cases hn : 1 ≤ n
      · have hpow : 2 ≤ 2 ^ n := by
          calc 2 = 2 ^ 1 := by norm_num
          _ ≤ 2 ^ n := Nat.pow_le_pow_right (by norm_num) hn
        have hrec := ih hn
        simp only [backoffAfterFailures, hrec, retryBackoffAfterFailure,
          MAX_RETRY_BACKOFF, INITIAL_RETRY_BACKOFF]
        have hne : min (2 ^ n) 120 ≠ 0 := by omega
        rw [if_neg hne, pow_succ]
        omega
      · have hn0 : n = 0 := by omega
        subst hn0
        simp [backoffAfterFailures, retryBackoffAfterFailure,
          INITIAL_RETRY_BACKOFF, MAX_RETRY_BACKOFF]
  refine ⟨hmain k hk, by simp [backoffAfterFailures, retryBackoffAfterFailure,
    INITIAL_RETRY_BACKOFF], ?_⟩
  have h2 : 2 ≤ 2 ^ k := by
    calc 2 = 2 ^ 1 := by norm_num
    _ ≤ 2 ^ k := Nat.pow_le_pow_right (by norm_num) hk
  have := hmain k hk
  rw [this]
  simp only [retryOnSuccess, MAX_RETRY_BACKOFF]
  rw [if_pos (by omega)]

/-- Witness for C7 at k = 3: the backoff is 8 seconds and a success then
resets it and logs the restore message. -/
theorem connection_retry_backoff_spec_witness :
    backoffAfterFailures 3 = min (2 ^ 3) MAX_RETRY_BACKOFF
    ∧ backoffAfterFailures 1 = INITIAL_RETRY_BACKOFF
    ∧ retryOnSuccess (backoffAfterFailures 3) = (0, true) :=
  connection_retry_backoff_spec 3 (by decide)

/-- C10. After `close()` has set the processor to the rejecting state,
every subsequent `enqueue_operation` call returns without raising, leaves
the queue and `_last_version` (indeed all processor state) untouched, and
emits only the not-accepting warning. -/
theorem enqueue_after_close_discard_spec (s : ProcState) (op : Op)
    (wait : Bool) (consumedObs : Nat) (runningObs : Bool) :
    enqueueOperation (closeProcessor s) op wait consumedObs runningObs =
      (closeProcessor s, [.warnNotAccepting], .ok ()) := by
  simp [enqueueOperation, closeProcessor, OperationAcceptance.isAccepting]

/-- Every state visited by the `process_batch` loop has its consumed
version equal to the ack cursor, its cursor equal to the starting cursor
plus the cumulative processed count, and its remaining batch equal to the
starting batch with the processed prefix dropped. -/
lemma pbTrace_spec (target : Nat) (ps : List Nat) :
    ∀ (s : PBState) (k : Nat) (st : PBState),
      (pbTrace target s ps).get? k = some st →
      st.consumedVersion = st.versionToAck
      ∧ st.versionToAck = s.versionToAck + (ps.take (k + 1)).sum
      ∧ st.remaining = s.remaining.drop ((ps.take (k + 1)).sum) := by
  induction ps with
  | nil =>
    intro s k st hst
    simp [pbTrace] at hst
  | cons p ps ih =>
    intro s k st hst
    simp only [pbTrace] at hst
    by_cases hstop : (pbStep s p).versionToAck = target
    · rw [if_pos hstop] at hst
      cases k with
      | zero =>
        simp only [List.get?] at hst
        cases hst
        simp [pbStep, List.take, List.sum_cons]
      | succ k => simp [List.get?] at hst
    · rw [if_neg hstop] at hst
      cases k with
      | zero =>
        simp only [List.get?] at hst
        cases hst
        simp [pbStep, List.take, List.sum_cons]
      | succ k =>
        simp only [List.get?] at hst
        obtain ⟨h1, h2, h3⟩ := ih (pbStep s p) k st hst
        refine ⟨h1, ?_, ?_⟩
        · rw [h2]
          simp only [pbStep, List.take, List.sum_cons]
          omega
        · rw [h3]
          simp only [pbStep, List.take, List.sum_cons]
          rw [List.drop_drop]

/-- C5. In the consumer's `process_batch` loop, the queue-ack cursor and
`_consumed_version` are updated together (every visited state has them
equal), and after the k-th `execute_operations` return the cursor equals
the version preceding the batch (`version - len(batch)`) plus the
cumulative processed count, with exactly that prefix of the batch
consumed — so no version is acknowledged before a return whose cumulative
processed count covers it. -/
theorem process_batch_ack_cursor_spec (batch : List Op)
    (version consumed₀ : Nat) (ps : List Nat) (k : Nat) (st : PBState)
    (hst : (pbTrace version (pbInit batch version consumed₀) ps).get? k = some st) :
    st.consumedVersion = st.versionToAck
    ∧ st.versionToAck = version - batch.length + (ps.take (k + 1)).sum
    ∧ st.remaining = batch.drop ((ps.take (k + 1)).sum) := by
  have h := pbTrace_spec version ps (pbInit batch version consumed₀) k st hst
  simpa [pbInit] using h

/-- Witness for C5: a batch of three operations ending at version 3,
processed in two returns of 2 and 1 operations; after the first return the
cursor is 2 and one operation remains. -/
theorem process_batch_ack_cursor_spec_witness :
    (pbTrace 3 (pbInit [10, 20, 30] 3 0) [2, 1]).get? 0 =
      some ⟨2, 2, [30]⟩
    ∧ ((2 : Nat) = 2 ∧ 2 = 3 - List.length [10, 20, 30] + ([2, 1].take 1).sum
        ∧ [30] = List.drop (([2, 1].take 1).sum) [10, 20, 30]) := by
  refine ⟨by decide, ?_⟩
  have h := process_batch_ack_cursor_spec [10, 20, 30] 3 0 [2, 1] 0
    ⟨2, 2, [30]⟩ (by decide)
  exact ⟨h.1, h.2.1, h.2.2⟩

/-- C6. `enqueue_operation` with `wait = true` (and `wait()` itself)
flushes before blocking on the condition variable for the version assigned
to the enqueued operation; once the wait releases (the release predicate is
`consumed_version ≥ version` or consumer not running), the call raises
`SynchronizationAlreadyStopped` exactly when the consumer is no longer
running — in particular whenever the consumer stopped before acknowledging
that version — and returns normally when it is still running. -/
theorem wait_synchronization_stopped_spec (s : ProcState) (op : Op)
    (consumedObs : Nat) (runningObs : Bool)
    (hacc : s.acceptance = .accepting)
    (hrel : waitRelease consumedObs (queuePut s op).2 runningObs) :
    (∃ pre, (enqueueOperation s op true consumedObs runningObs).2.1 =
        pre ++ [.flushQueue, .wakeUpConsumer, .blockUntilAcked ((queuePut s op).2)])
    ∧ (runningObs = false → consumedObs < (queuePut s op).2 →
        (enqueueOperation s op true consumedObs runningObs).2.2 = .error .syncStopped)
    ∧ (runningObs = true →
        (enqueueOperation s op true consumedObs runningObs).2.2 = .ok ()) := by
  have haccb : s.acceptance.isAccepting = true := by
    rw [hacc]; rfl
  simp only [enqueueOperation, haccb, Bool.not_true, Bool.false_eq_true,
    if_false, if_true, ite_true, ite_false]
  refine ⟨?_, ?_, ?_⟩
  · refine ⟨(if (checkQueueBackpressure { queuePut s op |>.1 with
        lastVersion := (queuePut s op).2 }).2 then [ProcAction.warnBackpressure] else [])
      ++ (if checkQueueSize (checkQueueBackpressure { queuePut s op |>.1 with
        lastVersion := (queuePut s op).2 }).1 then [ProcAction.wakeUpConsumer] else []), ?_⟩
    simp [List.append_assoc]
  · intro hrun _
    simp [waitResult, hrun]
  · intro hrun
    simp [waitResult, hrun]

/-- Witness for C6: a one-element enqueue on a fresh accepting processor
whose consumer has already stopped without acking; the call raises
`SynchronizationAlreadyStopped`. -/
theorem wait_synchronization_stopped_spec_witness :
    (enqueueOperation ⟨.accepting, 0, [], 0, 0, 2048⟩ 5 true 0 false).2.2 =
      .error .syncStopped :=
  (wait_synchronization_stopped_spec ⟨.accepting, 0, [], 0, 0, 2048⟩ 5 0 false
    rfl (Or.inr rfl)).2.1 rfl (by decide)

/-- C8 counterexample: the claim says every read call on a closed
dispatcher fails with MultiBackendClosed, but `get_all_run_urls` performs
no closed check: with the shutdown flag set it still returns the collected
URL list instead of failing. -/
theorem closed_read_urls_counterexample :
    getAllRunUrls true [⟨0, 0, .healthy 0⟩] (fun _ => .ok "u") = ["u"] := rfl

/-- C8 (amended). After `close()`, the mutating calls (`execute_operations`,
`create_run`, `create_model`, `create_model_version`) and the read calls
that go through `_check_not_closed` (the sequential read dispatch) fail
with MultiBackendClosed; the URL-producing reads such as `get_all_run_urls`
perform no closed check and return normally; and a second `close()` is
idempotent and never raises (`closeDispatcher` is a total function whose
second application returns the same closed state). -/
theorem closed_calls_spec (states : List BackendState)
    (run : Nat → ExecResult) (runC : Nat → Except Exn ApiExperiment)
    (runR : Nat → Except Exn Nat) (urlOf : Nat → Except Exn String)
    (extId extSysId : Option String)
    (beh : Nat → Option String → Option String → Except Exn ApiExperiment)
    (d : DispatcherState) (backendClose : Nat → Except Exn Unit) :
    executeOperations true states run = .error .closedErr
    ∧ createRun true states extId extSysId beh = .error .closedErr
    ∧ createFanOut true states runC = .error .closedErr
    ∧ readDispatch true states runR = .error .closedErr
    ∧ getAllRunUrls true states urlOf = getAllRunUrls false states urlOf
    ∧ (closeDispatcher d backendClose).1.closed = true
    ∧ closeDispatcher (closeDispatcher d backendClose).1 backendClose =
        closeDispatcher d backendClose := by
  refine ⟨rfl, rfl, rfl, rfl, rfl, rfl, rfl⟩

/-- The fold computing the Python `max` dominates its seed and every list
element. -/
lemma foldl_max_ge (l : List Nat) (a : Nat) :
    a ≤ l.foldl Nat.max a ∧ ∀ x ∈ l, x ≤ l.foldl Nat.max a := by
  induction l generalizing a with
  | nil => exact ⟨Nat.le_refl a, by intro x hx; exact absurd hx (List.not_mem_nil x)⟩
  | cons y l ih =>
    obtain ⟨h1, h2⟩ := ih (Nat.max a y)
    refine ⟨Nat.le_trans (Nat.le_max_left a y) h1, ?_⟩
    intro x hx
    rcases List.mem_cons.mp hx with hx | hx
    · subst hx; exact Nat.le_trans (Nat.le_max_right a x) h1
    · exact h2 x hx

/-- The fold computing the Python `max` is the seed or one of the list
elements. -/
lemma foldl_max_eq_or_mem (l : List Nat) (a : Nat) :
    l.foldl Nat.max a = a ∨ l.foldl Nat.max a ∈ l := by
  induction l generalizing a with
  | nil => exact Or.inl rfl
  | cons y l ih =>
    rcases ih (Nat.max a y) with h | h
    · rcases Nat.le_total a y with hay | hay
      · have hmax : Nat.max a y = y := max_eq_right hay
        rw [List.foldl_cons, h, hmax]
        exact Or.inr (List.mem_cons_self _ _)
      · have hmax : Nat.max a y = a := max_eq_left hay
        rw [List.foldl_cons, h, hmax]
        exact Or.inl rfl
    · exact Or.inr (List.mem_cons_of_mem _ h)

/-- `maxProcessed` of a nonempty result list is the maximum processed
count: it dominates every success and is attained by one of them. -/
lemma maxProcessed_spec (results : List (Nat × List Exn)) (hne : results ≠ []) :
    (∀ r ∈ results, r.1 ≤ maxProcessed results)
    ∧ ∃ r ∈ results, r.1 = maxProcessed results := by
  have hge := foldl_max_ge (results.map Prod.fst) 0
  constructor
  · intro r hr
    exact hge.2 r.1 (List.mem_map.mpr ⟨r, hr, rfl⟩)
  · rcases foldl_max_eq_or_mem (results.map Prod.fst) 0 with h | h
    · cases results with
      | nil => exact absurd rfl hne
      | cons r rs =>
        refine ⟨r, List.mem_cons_self _ _, ?_⟩
        have hr1 : r.1 ≤ maxProcessed (r :: rs) :=
          hge.2 r.1 (List.mem_map.mpr ⟨r, List.mem_cons_self _ _, rfl⟩)
        have : maxProcessed (r :: rs) = 0 := h
        omega
    · rcases List.mem_map.mp h with ⟨r, hr, heq⟩
      exact ⟨r, hr, heq⟩

/-- Characterisation of the failed-backend error list built by
`execute_operations`: every entry comes from a backend whose call raised
(with its original index and cause), and there is exactly one entry per
raising backend. -/
lemma backendErrors_spec (l : List BackendState) (run : Nat → ExecResult) :
    (∀ be ∈ (l.filterMap fun s =>
        match run s.index with
        | .err e => some (BackendError.mk s.index e)
        | .ok _ _ => none),
      ∃ s ∈ l, s.index = be.backendIndex ∧ run s.index = .err be.cause)
    ∧ (l.filterMap fun s =>
        match run s.index with
        | .err e => some (BackendError.mk s.index e)
        | .ok _ _ => none).length =
      (l.filter fun s =>
        match run s.index with
        | .err _ => true
        | .ok _ _ => false).length := by
  constructor
  · intro be hbe
    rcases List.mem_filterMap.mp hbe with ⟨s, hs, hmatch⟩
    refine ⟨s, hs, ?_⟩
    cases hrun : run s.index with
    | ok p es => rw [hrun] at hmatch; exact absurd hmatch (by simp)
    | err e =>
      rw [hrun] at hmatch
      simp only [Option.some.injEq] at hmatch
      rw [← hmatch]
      exact ⟨rfl, rfl⟩
  · induction l with
    | nil => rfl
    | cons s rest ih =>
      cases hrun : run s.index with
      | ok p es => simpa [List.filterMap_cons, List.filter_cons, hrun] using ih
      | err e => simpa [List.filterMap_cons, List.filter_cons, hrun] using ih

/-- C2. On a non-closed dispatcher where at least one routable backend's
`execute_operations` succeeds, the call returns the maximum
`processed_count` over the successful backends together with exactly one
error (original index and cause) per backend whose call raised;
per-operation errors returned by successful backends are not included. -/
theorem execute_operations_fanout_spec (states : List BackendState)
    (run : Nat → ExecResult)
    (hsucc : ∃ s ∈ getRoutableBackends states, ∃ p es, run s.index = .ok p es) :
    ∃ maxP errs,
      executeOperations false states run = .ok (maxP, errs)
      ∧ (∀ s ∈ getRoutableBackends states, ∀ p es, run s.index = .ok p es → p ≤ maxP)
      ∧ (∃ s ∈ getRoutableBackends states, ∃ es, run s.index = .ok maxP es)
      ∧ (∀ be ∈ errs, ∃ s ∈ getRoutableBackends states,
          s.index = be.backendIndex ∧ run s.index = .err be.cause)
      ∧ errs.length = ((getRoutableBackends states).filter fun s =>
          match run s.index with
          | .err _ => true
          | .ok _ _ => false).length := by
  classical
  set toUse := getRoutableBackends states with htoUse
  set results := toUse.filterMap (fun s =>
    match run s.index with
    | .ok p es => some (p, es)
    | .err _ => none) with hresults
  set errs := toUse.filterMap (fun s =>
    match run s.index with
    | .err e => some (BackendError.mk s.index e)
    | .ok _ _ => none) with herrs
  obtain ⟨s, hs, p, es, hrun⟩ := hsucc
  have hmem : (p, es) ∈ results := by
    rw [hresults]
    exact List.mem_filterMap.mpr ⟨s, hs, by rw [hrun]⟩
  have hne : results ≠ [] := by
    intro h; rw [h] at hmem; exact absurd hmem (List.not_mem_nil _)
  have hempty : results.isEmpty = false := by
    cases hres : results with
    | nil => exact absurd hres hne
    | cons a l => rfl
  have heval : executeOperations false states run = .ok (maxProcessed results, errs) := by
    simp only [executeOperations, if_false, Bool.false_eq_true, ← htoUse,
      ← hresults, ← herrs, hempty]
  obtain ⟨hmax_le, hmax_mem⟩ := maxProcessed_spec results hne
  obtain ⟨herr_mem, herr_len⟩ := backendErrors_spec toUse run
  refine ⟨maxProcessed results, errs, heval, ?_, ?_, ?_, ?_⟩
  · intro t ht q qs hq
    have : (q, qs) ∈ results := by
      rw [hresults]
      exact List.mem_filterMap.mpr ⟨t, ht, by rw [hq]⟩
    exact hmax_le (q, qs) this
  · obtain ⟨r, hr, hreq⟩ := hmax_mem
    rw [hresults] at hr
    rcases List.mem_filterMap.mp hr with ⟨t, ht, hmatch⟩
    cases hrt : run t.index with
    | ok q qs =>
      rw [hrt] at hmatch
      simp only [Option.some.injEq] at hmatch
      refine ⟨t, ht, qs, ?_⟩
      rw [hrt]
      have : r.1 = q := by rw [← hmatch]
      rw [← hreq, this]
    | err e => rw [hrt] at hmatch; exact absurd hmatch (by simp)
  · exact herr_mem
  · exact herr_len

/-- Witness for C2: two healthy backends, the first processing 5
operations and the second raising exception 9. -/
theorem execute_operations_fanout_spec_witness :
    ∃ maxP errs,
      executeOperations false [⟨0, 0, .healthy 0⟩, ⟨1, 1, .healthy 0⟩]
        (fun i => if i = 0 then .ok 5 [] else .err 9) = .ok (maxP, errs)
      ∧ (∀ s ∈ getRoutableBackends [⟨0, 0, .healthy 0⟩, ⟨1, 1, .healthy 0⟩],
          ∀ p es, (fun i => if i = 0 then ExecResult.ok 5 [] else .err 9) s.index
            = .ok p es → p ≤ maxP)
      ∧ (∃ s ∈ getRoutableBackends [⟨0, 0, .healthy 0⟩, ⟨1, 1, .healthy 0⟩],
          ∃ es, (fun i => if i = 0 then ExecResult.ok 5 [] else .err 9) s.index
            = .ok maxP es)
      ∧ (∀ be ∈ errs, ∃ s ∈ getRoutableBackends [⟨0, 0, .healthy 0⟩, ⟨1, 1, .healthy 0⟩],
          s.index = be.backendIndex ∧
            (fun i => if i = 0 then ExecResult.ok 5 [] else .err 9) s.index
              = .err be.cause)
      ∧ errs.length = ((getRoutableBackends [⟨0, 0, .healthy 0⟩, ⟨1, 1, .healthy 0⟩]).filter
          fun s =>
            match (fun i => if i = 0 then ExecResult.ok 5 [] else .err 9) s.index with
            | .err _ => true
            | .ok _ _ => false).length :=
  execute_operations_fanout_spec [⟨0, 0, .healthy 0⟩, ⟨1, 1, .healthy 0⟩]
    (fun i => if i = 0 then .ok 5 [] else .err 9)
    ⟨⟨0, 0, .healthy 0⟩, by decide, 5, [], rfl⟩

/-- C3. With at least two backends and a succeeding primary, `create_run`
calls the primary (position 0) with the caller's external identifiers,
invokes every remaining backend with `_external_id`/`_external_sys_id`
equal to the primary's `id`/`sys_id`, and returns the primary's
`ApiExperiment` regardless of secondary failures; a failing primary fails
the whole call. -/
theorem create_run_primary_secondary_spec (primary : BackendState)
    (remaining : List BackendState) (extId extSysId : Option String)
    (beh : Nat → Option String → Option String → Except Exn ApiExperiment)
    (hrem : remaining ≠ []) :
    (∀ api, beh primary.index extId extSysId = .ok api →
      createRun false (primary :: remaining) extId extSysId beh =
        .ok (api, ⟨primary.index, extId, extSysId⟩ ::
          remaining.map fun s => ⟨s.index, some api.id, some api.sysId⟩)
      ∧ ∀ s ∈ remaining,
          (⟨s.index, some api.id, some api.sysId⟩ : CreateRunCall) ∈
            (⟨primary.index, extId, extSysId⟩ ::
              remaining.map fun t => (⟨t.index, some api.id, some api.sysId⟩ : CreateRunCall)))
    ∧ (∀ e, beh primary.index extId extSysId = .error e →
        createRun false (primary :: remaining) extId extSysId beh =
          .error (.allFailed [⟨primary.index, e⟩])) := by
  constructor
  · intro api hok
    constructor
    · simp [createRun, hok]
    · intro s hs
      exact List.mem_cons_of_mem _ (List.mem_map.mpr ⟨s, hs, rfl⟩)
  · intro e herr
    cases remaining with
    | nil => exact absurd rfl hrem
    | cons r rs =>
      simp only [createRun, if_false, Bool.false_eq_true, herr]
      rfl

/-- Witness for C3: two backends, both returning the primary's
identifiers; the secondary is invoked with the primary's ids and the
primary's experiment is returned. -/
theorem create_run_primary_secondary_spec_witness :
    createRun false [⟨0, 0, .healthy 0⟩, ⟨1, 1, .healthy 0⟩] none none
      (fun _ _ _ => .ok ⟨"U1", "RUN-1"⟩) =
      .ok (⟨"U1", "RUN-1"⟩, [⟨0, none, none⟩, ⟨1, some "U1", some "RUN-1"⟩]) := by
  have h := (create_run_primary_secondary_spec ⟨0, 0, .healthy 0⟩
    [⟨1, 1, .healthy 0⟩] none none (fun _ _ _ => .ok ⟨"U1", "RUN-1"⟩)
    (by decide)).1 ⟨"U1", "RUN-1"⟩ rfl
  simpa using h.1

/-- `_raise_all_failed` raises `AllBackendsFailedError` whenever more (or
fewer) than one backend is wrapped. -/
lemma raiseAllFailed_ne_one (n : Nat) (errs : List BackendError) (h : n ≠ 1) :
    raiseAllFailed n errs = .allFailed errs := by
  match n, errs with
  | 0, [] => rfl
  | 0, e :: es => rfl
  | 1, errs => exact absurd rfl h
  | Nat.succ (Nat.succ m), [] => rfl
  | Nat.succ (Nat.succ m), e :: es => rfl

/-- With a single wrapped backend its health does not matter: the routable
list is that backend (directly, or through the empty-routable fallback). -/
lemma getRoutableBackends_singleton (s : BackendState) :
    getRoutableBackends [s] = [s] := by
  by_cases h : is_routable s.health
  · simp [getRoutableBackends, List.filter, h]
  · simp [getRoutableBackends, List.filter, h]

/-- The read-dispatch loop on an all-failing backend list accumulates one
error per backend and raises via `_raise_all_failed`. -/
lemma readDispatchGo_all_fail (numBackends : Nat) (run : Nat → Except Exn Nat)
    (cause : Nat → Exn) :
    ∀ (l : List BackendState) (acc : List BackendError),
      (∀ s ∈ l, run s.index = .error (cause s.index)) →
      readDispatchGo numBackends run l acc =
        .error (raiseAllFailed numBackends
          (acc ++ l.map fun s => ⟨s.index, cause s.index⟩)) := by
  intro l
  induction l with
  | nil => intro acc _; simp [readDispatchGo]
  | cons s rest ih =>
    intro acc hall
    have hs := hall s (List.mem_cons_self _ _)
    simp only [readDispatchGo, hs]
    have h' := ih (acc ++ [BackendError.mk s.index (cause s.index)])
      (fun t ht => hall t (List.mem_cons_of_mem _ ht))
    rw [h']
    simp [List.append_assoc]

/-- C9. When every routable backend fails an attempted (read-dispatched)
operation, the dispatcher raises `AllBackendsFailedError` carrying one
`(original_index, cause)` entry per failed backend; with exactly one
wrapped backend the original exception is re-raised unwrapped instead. -/
theorem all_backends_failed_spec (states : List BackendState)
    (run : Nat → Except Exn Nat) (cause : Nat → Exn)
    (hfail : ∀ s ∈ getRoutableBackends states, run s.index = .error (cause s.index)) :
    (2 ≤ states.length →
      readDispatch false states run =
        .error (.allFailed ((getRoutableBackends states).map
          fun s => ⟨s.index, cause s.index⟩)))
    ∧ (∀ s₀, states = [s₀] →
        readDispatch false states run = .error (.reraised (cause s₀.index))) := by
  constructor
  · intro hlen
    have h := readDispatchGo_all_fail states.length run cause
      (getRoutableBackends states) [] hfail
    simp only [readDispatch, if_false, Bool.false_eq_true, List.nil_append] at h ⊢
    rw [h, raiseAllFailed_ne_one _ _ (by omega)]
  · intro s₀ hstates
    subst hstates
    have hfail' : ∀ s ∈ [s₀], run s.index = .error (cause s.index) := by
      intro s hs
      exact hfail s (by rw [getRoutableBackends_singleton]; exact hs)
    have h := readDispatchGo_all_fail ([s₀].length) run cause [s₀] [] hfail'
    simp only [readDispatch, if_false, Bool.false_eq_true, getRoutableBackends_singleton]
    rw [h]
    rfl

/-- Witness for C9: two healthy backends both raising exception 7; the
caller sees AllBackendsFailed with both (index, cause) pairs. -/
theorem all_backends_failed_spec_witness :
    readDispatch false [⟨0, 0, .healthy 0⟩, ⟨1, 1, .healthy 0⟩] (fun _ => .error 7) =
      .error (.allFailed [⟨0, 7⟩, ⟨1, 7⟩]) := by
  have h := (all_backends_failed_spec [⟨0, 0, .healthy 0⟩, ⟨1, 1, .healthy 0⟩]
    (fun _ => .error 7) (fun _ => 7) (fun s _ => rfl)).1 (by decide)
  simpa using h

end Minfx
